import Mathlib

/-!
Verification of the SSE insight-streaming core of the portfolio dashboard.

The definitions below are a shallow embedding of:
  * the SSE read loop and frame dispatch of `useInsightsStream`
    (src/src/hooks/useInsightsStream.ts),
  * the TTL result cache and thread-id handling of `AISummaryBanner`
    (src/src/api/client.ts, second document),
  * the wire payload types (src/src/types/api.ts).

JavaScript objects parsed from JSON are modelled by a record of optional
fields (`SsePayload`): a field that is absent, `undefined` or `null` in the
JavaScript value is `none` here.  JavaScript truthiness of a string field
is modelled by `truthyStr` (present and non-empty).
-/

namespace PortfolioInsights

/-- One key number inside an insight (types/api.ts, `InsightKeyNumber`). -/
structure InsightKeyNumber where
  label : String
  value : String
  deriving DecidableEq

/-- An insight, projected to the fields the streaming core reads
(types/api.ts, `Insight`; remaining optional display fields are elided —
the streaming code only stores and compares whole insights). -/
structure Insight where
  summary : String
  details : String
  key_numbers : List InsightKeyNumber
  sources : List String
  ticker : Option String := none
  title : Option String := none
  priority : Option Int := none
  deriving DecidableEq

/-- The final insights result (types/api.ts, `InsightsResponse`). -/
structure InsightsResponse where
  version : String
  generated_at_utc : String
  insights : List Insight
  deriving DecidableEq

/-- A JSON payload as the hook sees it after `JSON.parse`: the union of all
fields the dispatch code of `useInsightsStream` inspects, every one
optional.  `meta_final_answer` models `parsed.meta?.final_answer`, a
JSON-encoded string: `none` = absent, `some none` = present but its own
JSON parse fails, `some (some r)` = parses to `r`. -/
structure SsePayload where
  phase : Option String := none
  progress_percent : Option Int := none
  message : Option String := none
  node : Option String := none
  status : Option String := none
  meta_final_answer : Option (Option InsightsResponse) := none
  summary : Option String := none
  version : Option String := none
  generated_at_utc : Option String := none
  insights : Option (List Insight) := none
  has_final_answer : Option Bool := none
  final_answer : Option InsightsResponse := none
  deriving DecidableEq

/-- JavaScript truthiness of an optional string field: present and
non-empty. -/
def truthyStr : Option String → Bool
  | none => false
  | some s => !s.isEmpty

/-- JavaScript `m || d` for an optional string `m` and default `d`. -/
def jsOr (m : Option String) (d : String) : String :=
  match m with
  | some s => if s.isEmpty then d else s
  | none => d

/-- The `parsed as InsightsResponse` cast of the legacy fallback branch,
restricted to the declared fields of `InsightsResponse`. -/
def payloadAsInsights (p : SsePayload) : InsightsResponse :=
  { version := p.version.getD ""
    generated_at_utc := p.generated_at_utc.getD ""
    insights := p.insights.getD [] }

/-- What a single entry of the hook's `updates` log carries: either a raw
payload or a final insights result. -/
inductive UpdateData where
  | payload (p : SsePayload)
  | final (r : InsightsResponse)
  deriving DecidableEq

/-- One entry of the `updates` log: an event name together with its data. -/
structure UpdateEntry where
  event : String
  data : UpdateData
  deriving DecidableEq

/-- The reactive state owned by `useInsightsStream`: the five `useState`
cells of the hook. -/
structure Session where
  insights : Option InsightsResponse
  isStreaming : Bool
  progress : Option SsePayload
  error : Option String
  updates : List UpdateEntry
  deriving DecidableEq

/-- The initial values of the hook's state cells. -/
def initialSession : Session :=
  { insights := none, isStreaming := false, progress := none, error := none,
    updates := [] }

/-- useInsightsStream.ts lines 104-125: the `agent_event` branch for a
payload with a truthy `phase` and a present `progress_percent`. -/
def applyAgentProgress (p : SsePayload) (s : Session) : Session :=
  let s1 : Session :=
    { s with progress := some p,
             updates := s.updates ++ [⟨"agent_event", UpdateData.payload p⟩] }
  let s2 : Session :=
    match p.final_answer with
    | some fa =>
        if p.has_final_answer = some true then
          { s1 with insights := some fa, isStreaming := false,
                    updates := s1.updates ++ [⟨"final", UpdateData.final fa⟩] }
        else s1
    | none => s1
  if p.phase = some "error" then
    { s2 with error := some (jsOr p.message "Error during insight generation"),
              isStreaming := false }
  else s2

/-- useInsightsStream.ts lines 101-154: dispatch of one successfully parsed
`data:` payload under the current SSE event name. -/
def applyParsed (currentEvent : Option String) (p : SsePayload) (s : Session) :
    Session :=
  if currentEvent = some "agent_event" then
    if truthyStr p.phase = true ∧ p.progress_percent.isSome = true then
      applyAgentProgress p s
    else if p.node = some "validator" ∧ p.status = some "result" ∧
        p.meta_final_answer.isSome = true then
      match p.meta_final_answer with
      | some (some fi) =>
          { s with insights := some fi, isStreaming := false,
                   updates := s.updates ++ [⟨"final", UpdateData.final fi⟩] }
      | some none =>
          { s with error := some "Failed to parse final insights",
                   isStreaming := false }
      | none => s
    else if truthyStr p.summary = true then
      { s with updates := s.updates ++ [⟨"agent_event", UpdateData.payload p⟩] }
    else s
  else if currentEvent = some "error" then
    { s with error := some (jsOr p.message "Unknown error from stream"),
             isStreaming := false,
             updates := s.updates ++ [⟨"error", UpdateData.payload p⟩] }
  else
    if truthyStr p.version = true ∧ p.insights.isSome = true then
      { s with insights := some (payloadAsInsights p), isStreaming := false,
               updates := s.updates ++
                 [⟨currentEvent.getD "message", UpdateData.payload p⟩] }
    else s

/-- The result of `JSON.parse` on one `data:` line: either the parse throws
(`malformed`, caught at lines 155-157) or yields a payload. -/
inductive DataPayload where
  | malformed
  | parsed (p : SsePayload)
  deriving DecidableEq

/-- Processing of one `data:` frame: a malformed payload is caught by the
`try`/`catch` and changes nothing; a parsed one is dispatched. -/
def applyFrame (currentEvent : Option String) (d : DataPayload) (s : Session) :
    Session :=
  match d with
  | .malformed => s
  | .parsed p => applyParsed currentEvent p s

/-- The read loop's effect on the session state over a list of delivered
`data:` frames, in arrival order (the loop body never breaks out early). -/
def runFrames (s : Session) : List (Option String × DataPayload) → Session
  | [] => s
  | f :: fs => runFrames (applyFrame f.1 f.2 s) fs

/-- Hook state including the abort controller: `aborted` is true when
`abort()` has been called on the current controller. -/
structure HookState where
  session : Session
  aborted : Bool
  deriving DecidableEq

/-- useInsightsStream.ts lines 24-30 (`cleanup`): abort the in-flight
transport, stop streaming.  Nothing else is touched. -/
def cleanup (h : HookState) : HookState :=
  { session := { h.session with isStreaming := false }, aborted := true }

/-- useInsightsStream.ts lines 32-43: the synchronous part of `startStream`
before any frame arrives: clean up the previous stream, reset `error`,
`progress` and `updates`, set `isStreaming`, install a fresh (unaborted)
controller.  `insights` is not reset. -/
def startStreamInit (h : HookState) : HookState :=
  let h1 := cleanup h
  let s1 : Session :=
    { h1.session with
        error := none
        progress := none
        isStreaming := true
        updates := [] }
  { session := s1, aborted := false }

/-- Delivery of frames to a live hook: the read loop only updates the
session state; nothing in the loop body aborts the controller. -/
def streamStep (h : HookState) (frames : List (Option String × DataPayload)) :
    HookState :=
  { h with session := runFrames h.session frames }

/-- useInsightsStream.ts lines 162-170, `AbortError` case of the `catch`:
only `isStreaming` is cleared; `error` is not set. -/
def onAbortError (s : Session) : Session :=
  { s with isStreaming := false }

/-- useInsightsStream.ts lines 162-170, non-abort case: a transport failure
sets the error message (with a fallback) and stops streaming. -/
def onStreamError (msg : Option String) (s : Session) : Session :=
  { s with error := some (jsOr msg "Failed to stream insights"),
           isStreaming := false }

/-- A caller-initiated cancellation mid-flight: `cleanup` aborts the
controller, the pending read rejects with `AbortError`, and the `catch`
runs its abort branch. -/
def cancelStream (h : HookState) : HookState :=
  let h1 := cleanup h
  { h1 with session := onAbortError h1.session }

/-- useInsightsStream.ts lines 173-177 (`clearInsights`). -/
def clearInsights (s : Session) : Session :=
  { s with insights := none, progress := none, error := none }

/-! ## The SSE frame parser (useInsightsStream.ts lines 70-99)

The read loop keeps a `buffer` string and a `currentEvent` name across
chunks.  On every chunk it appends the chunk to the buffer, splits on
newline, keeps the last (possibly incomplete) piece as the new buffer and
processes every completed line.  Text is modelled as `List Char`. -/

/-- The effect of `buffer.split('\n')` followed by `lines.pop()`: the
completed lines of the text, and the trailing remainder after the last
newline. -/
def splitLines : List Char → List (List Char) × List Char
  | [] => ([], [])
  | c :: cs =>
    if c = '\n' then ([] :: (splitLines cs).1, (splitLines cs).2)
    else
      match (splitLines cs).1 with
      | [] => ([], c :: (splitLines cs).2)
      | l :: ls => ((c :: l) :: ls, (splitLines cs).2)

/-- One emitted SSE frame: the event name active at the `data:` line (none
for an unnamed event) and the trimmed data text. -/
structure SseFrame where
  eventType : Option String
  data : String
  deriving DecidableEq

/-- useInsightsStream.ts lines 85-99: processing of one completed line.
A blank line resets the current event name; an `event:` line installs a
new one; a `data:` line emits a frame under the active name; anything
else is ignored. -/
def processLine (currentEvent : Option String) (line : String) :
    Option String × Option SseFrame :=
  let trimmed := line.trim
  if trimmed.isEmpty then (none, none)
  else if trimmed.startsWith "event:" then
    (some ((trimmed.drop 6).trim), none)
  else if trimmed.startsWith "data:" then
    (currentEvent, some ⟨currentEvent, (trimmed.drop 5).trim⟩)
  else (currentEvent, none)

/-- Processing of a list of completed lines, threading the current event
name and collecting emitted frames. -/
def processLines (ev : Option String) : List (List Char) →
    Option String × List SseFrame
  | [] => (ev, [])
  | l :: ls =>
    let pl := processLine ev (String.mk l)
    let rest := processLines pl.1 ls
    (rest.1, pl.2.toList ++ rest.2)

/-- The parser state carried across chunk reads. -/
structure ParserState where
  buffer : List Char
  currentEvent : Option String
  deriving DecidableEq

/-- The parser state at the start of a stream (lines 70-71). -/
def parserInit : ParserState := ⟨[], none⟩

/-- useInsightsStream.ts lines 81-99: consume one decoded chunk: append it
to the buffer, split off the completed lines, keep the remainder, process
the lines. -/
def feedChunk (st : ParserState) (chunk : List Char) :
    ParserState × List SseFrame :=
  (⟨(splitLines (st.buffer ++ chunk)).2,
    (processLines st.currentEvent (splitLines (st.buffer ++ chunk)).1).1⟩,
   (processLines st.currentEvent (splitLines (st.buffer ++ chunk)).1).2)

/-- Consume a sequence of chunks, collecting all emitted frames. -/
def feedChunks (st : ParserState) : List (List Char) →
    ParserState × List SseFrame
  | [] => (st, [])
  | c :: cs =>
    let r1 := feedChunk st c
    let r2 := feedChunks r1.1 cs
    (r2.1, r1.2 ++ r2.2)

/-! ## The TTL result cache (src/src/api/client.ts, `AISummaryBanner`)

The banner stores the last completed result in browser-local storage under
the fixed key `portfolio_insights_cache`, with the write time, and keeps
the rotating thread id under the separate fixed key
`portfolio_insights_thread_id`.  Times are epoch milliseconds. -/

/-- client.ts line 484: the cache TTL, 30 minutes in milliseconds. -/
def CACHE_DURATION : Int := 30 * 60 * 1000

/-- client.ts lines 487-490: the stored cache blob. -/
structure CachedInsights where
  data : InsightsResponse
  timestamp : Int
  deriving DecidableEq

/-- The browser-local storage slots the banner uses: the cache blob under
`CACHE_KEY` and the thread id under `THREAD_ID_KEY`. -/
structure BrowserStorage where
  cache : Option CachedInsights
  threadId : Option String
  deriving DecidableEq

/-- client.ts lines 586-601: read the cache at time `now`; a fresh entry is
returned, a stale one is evicted and `none` is returned.  The read looks
only at the fixed `CACHE_KEY` slot; `threadId` plays no part. -/
def readCache (st : BrowserStorage) (now : Int) :
    Option InsightsResponse × BrowserStorage :=
  match st.cache with
  | none => (none, st)
  | some c =>
    if now - c.timestamp < CACHE_DURATION then (some c.data, st)
    else (none, { st with cache := none })

/-- client.ts lines 607-616: when a final result arrives it is written to
the fixed `CACHE_KEY` slot with the current time, whatever the active
thread id is. -/
def writeCache (st : BrowserStorage) (r : InsightsResponse) (now : Int) :
    BrowserStorage :=
  { st with cache := some ⟨r, now⟩ }

/-- `localStorage.setItem(THREAD_ID_KEY, id)`: record a new active thread
id (client.ts lines 578 and 626). -/
def setThreadId (st : BrowserStorage) (id : String) : BrowserStorage :=
  { st with threadId := some id }

/-- client.ts lines 623-634 (`handleRefresh`), the storage effect: rotate
the thread id and remove the cache entry. -/
def handleRefresh (st : BrowserStorage) (newId : String) : BrowserStorage :=
  { st with threadId := some newId, cache := none }

/-! ## The per-ticker pipeline tracker for `insight_complete` events

Modelled from the spec: the v4.0 hook that consumes `insight_complete`
frames and keeps per-ticker pipeline state (the hook returning
`streamingInsights` and `pipelineStatus`, used by `AISummaryBanner`) is
not among the provided sources; only its payload type
(`InsightCompleteEvent` in src/src/types/api.ts) and its caller appear.
The definitions below follow spec sections 4.2 (rule 4) and 4.3. -/

/-- The pipeline status of one ticker (types/api.ts `PipelineStatus`, plus
the tracker-only `pending` and `processing` states of spec section 3). -/
inductive PipelineStatus where
  | pending
  | processing
  | cached
  | accepted
  | rejected
  | skipped
  deriving DecidableEq

/-- The verdict attached to an `insight_complete` payload (types/api.ts). -/
structure Verdict where
  verdict : String
  confidence_score : Int
  feedback : String
  deriving DecidableEq

/-- The wire payload of an `insight_complete` frame (types/api.ts,
`InsightCompleteEvent`): `insight` is absent (`none`) when the status is
`rejected` or `skipped` and no insight body was sent. -/
structure InsightCompletePayload where
  ticker : String
  status : PipelineStatus
  insight : Option Insight := none
  verdict : Option Verdict := none
  timestamp : Int := 0
  deriving DecidableEq

/-- Modelled from the spec: the canonical `InsightComplete` event produced
by the normalizer (spec section 3, `StreamEvent`). -/
structure InsightCompleteEvent where
  ticker : String
  status : PipelineStatus
  insight : Option Insight
  verdict : Option Verdict
  timestamp : Int
  deriving DecidableEq

/-- Modelled from the spec: normalizer rule 4 of section 4.2 — a frame
whose event type is `insight_complete` becomes an `InsightComplete` event
carrying the payload's ticker, status, insight and verdict; any other
event type is not handled by this rule. -/
def normalizeInsightComplete (eventType : Option String)
    (p : InsightCompletePayload) : Option InsightCompleteEvent :=
  if eventType = some "insight_complete" then
    some ⟨p.ticker, p.status, p.insight, p.verdict, p.timestamp⟩
  else none

/-- One tracked entry of the pipeline tracker (spec section 3,
`PipelineEntry`). -/
structure PipelineEntry where
  ticker : String
  status : PipelineStatus
  insight : Option Insight
  verdict : Option Verdict
  lastUpdatedAt : Int
  deriving DecidableEq

/-- The tracker state: an association of tickers to entries. -/
def PipelineState := List (String × PipelineEntry)

/-- Lookup of a ticker's entry. -/
def lookupEntry (tr : PipelineState) (t : String) : Option PipelineEntry :=
  match tr with
  | [] => none
  | (k, e) :: rest => if k = t then some e else lookupEntry rest t

/-- Replace or append the entry for a ticker. -/
def setEntry (tr : PipelineState) (t : String) (e : PipelineEntry) :
    PipelineState :=
  match tr with
  | [] => [(t, e)]
  | (k, e0) :: rest =>
    if k = t then (t, e) :: rest else (k, e0) :: setEntry rest t e

/-- Modelled from the spec: tracker rule 3 of section 4.3 — an
`InsightComplete` event sets the ticker's status, insight, verdict and
update time, authoritatively. -/
def applyInsightComplete (tr : PipelineState) (e : InsightCompleteEvent) :
    PipelineState :=
  setEntry tr e.ticker ⟨e.ticker, e.status, e.insight, e.verdict, e.timestamp⟩

/-! ## Sample values used by witnesses and counterexamples -/

/-- A concrete insight used by witnesses. -/
def sampleInsight : Insight :=
  { summary := "AAPL outperformed", details := "details", key_numbers := [],
    sources := [] }

/-- A concrete final insights result used by witnesses. -/
def sampleResult : InsightsResponse :=
  { version := "1.0", generated_at_utc := "2026-01-01T00:00:00Z",
    insights := [sampleInsight] }

/-! ## Theorems -/

/-- Step lemma: a newline closes the current line. -/
theorem splitLines_cons_newline (cs : List Char) :
    splitLines ('\n' :: cs) = ([] :: (splitLines cs).1, (splitLines cs).2) := by
  simp [splitLines]

/-- Step lemma: a non-newline character extends the first line, or begins
the remainder when no completed line follows. -/
theorem splitLines_cons_ne (c : Char) (cs : List Char) (hc : ¬c = '\n') :
    splitLines (c :: cs) =
      (match (splitLines cs).1 with
       | [] => ([], c :: (splitLines cs).2)
       | l :: ls => ((c :: l) :: ls, (splitLines cs).2)) := by
  simp [splitLines, hc]

/-- Splitting a concatenation: the completed lines of `a ++ b` are the
completed lines of `a` followed by those of `a`'s remainder prefixed to
`b`, and the remainder is that of the second split. -/
theorem splitLines_append (a b : List Char) :
    splitLines (a ++ b) =
      ((splitLines a).1 ++ (splitLines ((splitLines a).2 ++ b)).1,
       (splitLines ((splitLines a).2 ++ b)).2) := by
  induction a with
  | nil => simp [splitLines]
  | cons c a ih =>
    by_cases hc : c = '\n'
    · subst hc
      rw [List.cons_append, splitLines_cons_newline, ih, splitLines_cons_newline]
      simp
    · rw [List.cons_append, splitLines_cons_ne c (a ++ b) hc, ih,
          splitLines_cons_ne c a hc]
      cases h1 : (splitLines a).1 with
      | nil =>
        simp only [h1, List.nil_append]
        rw [List.cons_append, splitLines_cons_ne c ((splitLines a).2 ++ b) hc]
      | cons l ls =>
        simp [h1]

/-- Processing a concatenation of line lists threads the event name and
concatenates the emitted frames. -/
theorem processLines_append (ev : Option String) (xs ys : List (List Char)) :
    processLines ev (xs ++ ys) =
      ((processLines (processLines ev xs).1 ys).1,
       (processLines ev xs).2 ++ (processLines (processLines ev xs).1 ys).2) := by
  induction xs generalizing ev with
  | nil => simp [processLines]
  | cons l ls ih => simp [processLines, ih]

/-- Feeding a concatenated chunk equals feeding the two pieces in turn. -/
theorem feedChunk_append (st : ParserState) (c1 c2 : List Char) :
    feedChunk st (c1 ++ c2) =
      ((feedChunk (feedChunk st c1).1 c2).1,
       (feedChunk st c1).2 ++ (feedChunk (feedChunk st c1).1 c2).2) := by
  unfold feedChunk
  rw [← List.append_assoc, splitLines_append (st.buffer ++ c1) c2]
  rw [processLines_append]

/-- A newline-free text splits into no completed line and itself. -/
theorem splitLines_no_newline (b : List Char) (hb : '\n' ∉ b) :
    splitLines b = ([], b) := by
  induction b with
  | nil => rfl
  | cons c cs ih =>
    have hc : ¬c = '\n' := fun h => hb (h ▸ List.mem_cons_self c cs)
    rw [splitLines_cons_ne c cs hc]
    rw [ih (fun h => hb (List.mem_cons_of_mem c h))]

/-- The remainder of a split never contains a newline. -/
theorem splitLines_rem_no_newline (x : List Char) : '\n' ∉ (splitLines x).2 := by
  induction x with
  | nil => simp [splitLines]
  | cons c cs ih =>
    by_cases hc : c = '\n'
    · subst hc
      rw [splitLines_cons_newline]
      exact ih
    · rw [splitLines_cons_ne c cs hc]
      cases h1 : (splitLines cs).1 with
      | nil =>
        intro hmem
        rcases List.mem_cons.mp hmem with h | h
        · exact hc h.symm
        · exact ih h
      | cons l ls => exact ih

/-- Feeding any chunk sequence from a newline-free buffer equals feeding
their concatenation at once. -/
theorem feedChunks_join (chunks : List (List Char)) (st : ParserState)
    (hb : '\n' ∉ st.buffer) :
    feedChunks st chunks = feedChunk st chunks.flatten := by
  induction chunks generalizing st with
  | nil =>
    show (st, []) = feedChunk st []
    unfold feedChunk
    rw [List.append_nil, splitLines_no_newline st.buffer hb]
    simp [processLines]
  | cons c cs ih =>
    have hb1 : '\n' ∉ (feedChunk st c).1.buffer := by
      show '\n' ∉ (splitLines (st.buffer ++ c)).2
      exact splitLines_rem_no_newline _
    calc feedChunks st (c :: cs)
        = ((feedChunks (feedChunk st c).1 cs).1,
           (feedChunk st c).2 ++ (feedChunks (feedChunk st c).1 cs).2) := rfl
      _ = ((feedChunk (feedChunk st c).1 cs.flatten).1,
           (feedChunk st c).2 ++ (feedChunk (feedChunk st c).1 cs.flatten).2) := by
            rw [ih _ hb1]
      _ = feedChunk st (c ++ cs.flatten) := (feedChunk_append st c cs.flatten).symm

/-- C7: the SSE frame parser is chunking-invariant — for every input text
and every way of splitting it into chunks, feeding the chunks one by one
through the read loop's buffer-and-split logic yields exactly the same
final parser state and the same sequence of `(eventType, data)` frames as
feeding the whole text as a single chunk; in particular a line split
across two reads is never emitted as a partial frame. -/
theorem sse_parser_chunking_invariant (chunks : List (List Char)) :
    feedChunks parserInit chunks = feedChunk parserInit chunks.flatten :=
  feedChunks_join chunks parserInit (by simp [parserInit])

/-- Helper: a progress payload carrying a truthy final answer stores it as
the terminal insights result and stops streaming, whatever phase it has. -/
theorem applyAgentProgress_final (p : SsePayload) (r : InsightsResponse)
    (s : Session) (hhfa : p.has_final_answer = some true)
    (hfa : p.final_answer = some r) :
    (applyAgentProgress p s).insights = some r ∧
    (applyAgentProgress p s).isStreaming = false := by
  unfold applyAgentProgress
  rw [hfa]
  simp only [hhfa, if_pos rfl]
  by_cases hph : p.phase = some "error"
  · rw [if_pos hph]
    exact ⟨rfl, rfl⟩
  · rw [if_neg hph]
    exact ⟨rfl, rfl⟩

/-- C1: for every `agent_event` frame whose payload has a (truthy) `phase`
and a present `progress_percent`, if `has_final_answer` is true and
`final_answer` is non-null, processing the frame sets the session's
insights result to that final answer and ends streaming, whatever the
phase string is. -/
theorem agent_event_final_answer_terminal (p : SsePayload)
    (r : InsightsResponse) (s : Session) (hph : truthyStr p.phase = true)
    (hpp : p.progress_percent.isSome = true)
    (hhfa : p.has_final_answer = some true) (hfa : p.final_answer = some r) :
    (applyFrame (some "agent_event") (.parsed p) s).insights = some r ∧
    (applyFrame (some "agent_event") (.parsed p) s).isStreaming = false := by
  show (applyParsed (some "agent_event") p s).insights = some r ∧
    (applyParsed (some "agent_event") p s).isStreaming = false
  unfold applyParsed
  rw [if_pos rfl, if_pos ⟨hph, hpp⟩]
  exact applyAgentProgress_final p r s hhfa hfa

/-- A concrete completion payload used by the C1 witness: the phase is the
non-terminal `insight_pipeline`, yet the final answer is present. -/
def samplePayloadFinal : SsePayload :=
  { phase := some "insight_pipeline", progress_percent := some 80,
    has_final_answer := some true, final_answer := some sampleResult }

/-- Witness for C1 at a concrete frame and session. -/
theorem agent_event_final_answer_terminal_witness :
    (applyFrame (some "agent_event") (.parsed samplePayloadFinal)
        initialSession).insights = some sampleResult ∧
    (applyFrame (some "agent_event") (.parsed samplePayloadFinal)
        initialSession).isStreaming = false :=
  agent_event_final_answer_terminal samplePayloadFinal sampleResult
    initialSession (by decide) (by decide) rfl rfl

/-- C2 (amended): processing a Progress frame with `phase == "error"` sets
the session's error to the frame's message (with a default) and clears
`isStreaming`; however the read loop does not cancel the underlying
transport (`aborted` is unchanged) and subsequent frames are still
processed normally from the resulting state. -/
theorem error_phase_sets_error_only (p : SsePayload) (h : HookState)
    (rest : List (Option String × DataPayload))
    (hpp : p.progress_percent.isSome = true) (herr : p.phase = some "error") :
    (applyFrame (some "agent_event") (.parsed p) h.session).error
        = some (jsOr p.message "Error during insight generation") ∧
    (applyFrame (some "agent_event") (.parsed p) h.session).isStreaming
        = false ∧
    (streamStep h ((some "agent_event", .parsed p) :: rest)).aborted
        = h.aborted ∧
    (streamStep h ((some "agent_event", .parsed p) :: rest)).session
        = runFrames (applyFrame (some "agent_event") (.parsed p) h.session)
            rest := by
  have hph : truthyStr p.phase = true := by rw [herr]; rfl
  have hmain : (applyFrame (some "agent_event") (.parsed p) h.session).error
        = some (jsOr p.message "Error during insight generation") ∧
      (applyFrame (some "agent_event") (.parsed p) h.session).isStreaming
        = false := by
    show (applyParsed (some "agent_event") p h.session).error = _ ∧
      (applyParsed (some "agent_event") p h.session).isStreaming = false
    unfold applyParsed
    rw [if_pos rfl, if_pos ⟨hph, hpp⟩]
    unfold applyAgentProgress
    rw [if_pos herr]
    exact ⟨rfl, rfl⟩
  exact ⟨hmain.1, hmain.2, rfl, rfl⟩

/-- Witness for the amended C2 at a concrete error frame. -/
theorem error_phase_sets_error_only_witness :
    (applyFrame (some "agent_event")
        (.parsed { phase := some "error", progress_percent := some 50,
                   message := some "boom" })
        initialSession).error = some "boom" ∧
    (applyFrame (some "agent_event")
        (.parsed { phase := some "error", progress_percent := some 50,
                   message := some "boom" })
        initialSession).isStreaming = false :=
  ⟨(error_phase_sets_error_only
      { phase := some "error", progress_percent := some 50,
        message := some "boom" }
      ⟨initialSession, false⟩ [] rfl rfl).1,
   (error_phase_sets_error_only
      { phase := some "error", progress_percent := some 50,
        message := some "boom" }
      ⟨initialSession, false⟩ [] rfl rfl).2.1⟩

/-- Counterexample to C2 as stated: after a `phase == "error"` Progress
frame the transport is not cancelled (`aborted` stays false) and a
subsequently delivered frame still changes the session state (it updates
`progress` and the `updates` log). -/
theorem error_phase_not_terminal_counterexample :
    (streamStep (startStreamInit ⟨initialSession, false⟩)
        [(some "agent_event",
          .parsed { phase := some "error", progress_percent := some 50,
                    message := some "boom" })]).session.error
      = some "boom" ∧
    (streamStep (streamStep (startStreamInit ⟨initialSession, false⟩)
        [(some "agent_event",
          .parsed { phase := some "error", progress_percent := some 50,
                    message := some "boom" })])
        [(some "agent_event",
          .parsed { phase := some "composition",
                    progress_percent := some 60 })]).aborted = false ∧
    (streamStep (streamStep (startStreamInit ⟨initialSession, false⟩)
        [(some "agent_event",
          .parsed { phase := some "error", progress_percent := some 50,
                    message := some "boom" })])
        [(some "agent_event",
          .parsed { phase := some "composition",
                    progress_percent := some 60 })]).session
      ≠ (streamStep (startStreamInit ⟨initialSession, false⟩)
        [(some "agent_event",
          .parsed { phase := some "error", progress_percent := some 50,
                    message := some "boom" })]).session ∧
    (streamStep (streamStep (startStreamInit ⟨initialSession, false⟩)
        [(some "agent_event",
          .parsed { phase := some "error", progress_percent := some 50,
                    message := some "boom" })])
        [(some "agent_event",
          .parsed { phase := some "composition",
                    progress_percent := some 60 })]).session.progress
      = some { phase := some "composition", progress_percent := some 60 } := by
  refine ⟨rfl, rfl, ?_, rfl⟩
  decide

/-- Helper: looking up a ticker right after setting its entry returns that
entry. -/
theorem lookup_setEntry (tr : PipelineState) (t : String) (e : PipelineEntry) :
    lookupEntry (setEntry tr t e) t = some e := by
  induction tr with
  | nil => simp [setEntry, lookupEntry]
  | cons kv rest ih =>
    obtain ⟨k, e0⟩ := kv
    by_cases hk : k = t
    · simp [setEntry, lookupEntry, hk]
    · simp [setEntry, lookupEntry, hk, ih]

/-- C3: an `insight_complete` frame is normalized to an `InsightComplete`
event carrying the payload's ticker, status, insight and verdict (the
insight staying null when none was sent), and applying that event updates
the pipeline tracker's entry for that ticker.  The handling code is
modelled from the spec (sections 4.2 rule 4 and 4.3). -/
theorem insight_complete_normalized_and_tracked (p : InsightCompletePayload)
    (tr : PipelineState) :
    normalizeInsightComplete (some "insight_complete") p
      = some ⟨p.ticker, p.status, p.insight, p.verdict, p.timestamp⟩ ∧
    lookupEntry
      (applyInsightComplete tr
        ⟨p.ticker, p.status, p.insight, p.verdict, p.timestamp⟩)
      p.ticker
      = some ⟨p.ticker, p.status, p.insight, p.verdict, p.timestamp⟩ := by
  constructor
  · unfold normalizeInsightComplete
    rw [if_pos rfl]
  · exact lookup_setEntry tr p.ticker _

/-- C4: a frame with no `event:` name whose payload has a (truthy)
`version` and an `insights` field is treated as a legacy final result: it
leaves the session with the same insights value and the same ended
streaming flag as an `agent_event` completion carrying the same result as
`final_answer`. -/
theorem legacy_final_matches_current (p q : SsePayload)
    (r : InsightsResponse) (s : Session)
    (hv : truthyStr p.version = true) (hi : p.insights.isSome = true)
    (hpr : payloadAsInsights p = r)
    (hqph : truthyStr q.phase = true)
    (hqpp : q.progress_percent.isSome = true)
    (hqhfa : q.has_final_answer = some true)
    (hqfa : q.final_answer = some r) :
    (applyFrame none (.parsed p) s).insights
      = (applyFrame (some "agent_event") (.parsed q) s).insights ∧
    (applyFrame none (.parsed p) s).insights = some r ∧
    (applyFrame none (.parsed p) s).isStreaming = false ∧
    (applyFrame (some "agent_event") (.parsed q) s).isStreaming = false := by
  have hcur : (applyFrame (some "agent_event") (.parsed q) s).insights
        = some r ∧
      (applyFrame (some "agent_event") (.parsed q) s).isStreaming = false := by
    show (applyParsed (some "agent_event") q s).insights = some r ∧
      (applyParsed (some "agent_event") q s).isStreaming = false
    unfold applyParsed
    rw [if_pos rfl, if_pos ⟨hqph, hqpp⟩]
    exact applyAgentProgress_final q r s hqhfa hqfa
  have hleg : (applyFrame none (.parsed p) s).insights = some r ∧
      (applyFrame none (.parsed p) s).isStreaming = false := by
    show (applyParsed none p s).insights = some r ∧
      (applyParsed none p s).isStreaming = false
    unfold applyParsed
    rw [if_neg (by simp), if_neg (by simp), if_pos ⟨hv, hi⟩, hpr]
    exact ⟨rfl, rfl⟩
  exact ⟨hleg.1.trans hcur.1.symm, hleg.1, hleg.2, hcur.2⟩

/-- A concrete legacy final payload used by the C4 witness. -/
def sampleLegacyFinal : SsePayload :=
  { version := some "1.0", generated_at_utc := some "2026-01-01T00:00:00Z",
    insights := some [sampleInsight] }

/-- Witness for C4: the concrete legacy frame and the concrete completion
frame produce the same terminal insights value and both end streaming. -/
theorem legacy_final_matches_current_witness :
    (applyFrame none (.parsed sampleLegacyFinal) initialSession).insights
      = (applyFrame (some "agent_event") (.parsed samplePayloadFinal)
          initialSession).insights ∧
    (applyFrame none (.parsed sampleLegacyFinal) initialSession).insights
      = some sampleResult ∧
    (applyFrame none (.parsed sampleLegacyFinal) initialSession).isStreaming
      = false ∧
    (applyFrame (some "agent_event") (.parsed samplePayloadFinal)
        initialSession).isStreaming = false :=
  legacy_final_matches_current sampleLegacyFinal samplePayloadFinal
    sampleResult initialSession (by decide) rfl (by decide) (by decide) rfl
    rfl rfl

/-- C5 (amended): the cache returns the stored result while
`now - storedAt` is strictly below the 30-minute TTL, and returns none and
evicts the entry once `now - storedAt` reaches the TTL (so strictly more
than 30 minutes is stale, and exactly 30 minutes is evicted too); after an
eviction every subsequent read returns none.  In particular a `put` at
time T is returned at T + 29 minutes and gone at T + 31 minutes. -/
theorem cache_ttl (st : BrowserStorage) (r : InsightsResponse)
    (T now now2 : Int) :
    (now - T < CACHE_DURATION →
      readCache (writeCache st r T) now = (some r, writeCache st r T)) ∧
    (CACHE_DURATION ≤ now - T →
      (readCache (writeCache st r T) now).1 = none ∧
      (readCache (writeCache st r T) now).2.cache = none ∧
      (readCache (readCache (writeCache st r T) now).2 now2).1 = none) := by
  constructor
  · intro hlt
    simp [readCache, writeCache, hlt]
  · intro hge
    simp [readCache, writeCache, not_lt.mpr hge]

/-- Witness for the amended C5: a result stored at time 0 is returned at
29 minutes and gone (entry evicted, second read still none) at 31
minutes. -/
theorem cache_ttl_witness :
    readCache (writeCache ⟨none, none⟩ sampleResult 0) 1740000
      = (some sampleResult, writeCache ⟨none, none⟩ sampleResult 0) ∧
    (readCache (writeCache ⟨none, none⟩ sampleResult 0) 1860000).1 = none ∧
    (readCache (readCache (writeCache ⟨none, none⟩ sampleResult 0)
        1860000).2 1900000).1 = none :=
  ⟨(cache_ttl ⟨none, none⟩ sampleResult 0 1740000 0).1 (by decide),
   ((cache_ttl ⟨none, none⟩ sampleResult 0 1860000 1900000).2 (by decide)).1,
   ((cache_ttl ⟨none, none⟩ sampleResult 0 1860000 1900000).2
      (by decide)).2.2⟩

/-- Counterexample to C5 as stated: at exactly 30 minutes after the store
(`now - storedAt ≤ 30 min`, so the claim demands the stored result) the
code returns none and evicts the entry, because its freshness test is
strict. -/
theorem cache_ttl_boundary_counterexample :
    ((1800000 : Int) - 0 ≤ CACHE_DURATION) ∧
    (readCache (writeCache ⟨none, none⟩ sampleResult 0) 1800000).1 = none ∧
    (readCache (writeCache ⟨none, none⟩ sampleResult 0) 1800000).2.cache
      = none := by
  refine ⟨by decide, rfl, rfl⟩

/-- C6 (amended): the result cache is stored under one fixed storage key
and is not scoped by the thread id — a read returns whatever entry is
stored regardless of which thread id is active (reads are insensitive to
the thread id slot); isolation is only operational: the refresh flow
clears the cache entry in the same action that rotates the thread id, so
after `handleRefresh` no stale entry is returned. -/
theorem cache_not_keyed_by_thread (st : BrowserStorage) (newId : String)
    (now : Int) (id1 id2 : String) :
    (readCache (handleRefresh st newId) now).1 = none ∧
    (handleRefresh st newId).threadId = some newId ∧
    (readCache (setThreadId st id1) now).1
      = (readCache (setThreadId st id2) now).1 := by
  refine ⟨rfl, rfl, ?_⟩
  unfold readCache setThreadId
  cases st.cache with
  | none => rfl
  | some c =>
    by_cases hlt : now - c.timestamp < CACHE_DURATION
    · simp [hlt]
    · simp [hlt]

/-- Counterexample to C6 as stated: an entry stored while thread id
`thread-A` is active is returned by a read performed while the different
thread id `thread-B` is active. -/
theorem cache_cross_thread_counterexample :
    (setThreadId (writeCache (setThreadId ⟨none, none⟩ "thread-A")
        sampleResult 0) "thread-B").threadId
      ≠ (setThreadId ⟨none, none⟩ "thread-A").threadId ∧
    (readCache (setThreadId (writeCache (setThreadId ⟨none, none⟩ "thread-A")
        sampleResult 0) "thread-B") 60000).1 = some sampleResult := by
  refine ⟨by decide, rfl⟩

/-- C8: a caller-initiated cancellation mid-flight is silent — the abort
path never touches `error` (so it stays null when it was null), the
`updates` log, `progress` or `insights`; only `isStreaming` becomes false,
and the transport is aborted. -/
theorem cancel_is_silent (h : HookState) :
    (cancelStream h).session.error = h.session.error ∧
    (cancelStream h).session.progress = h.session.progress ∧
    (cancelStream h).session.updates = h.session.updates ∧
    (cancelStream h).session.insights = h.session.insights ∧
    (cancelStream h).session.isStreaming = false ∧
    (cancelStream h).aborted = true :=
  ⟨rfl, rfl, rfl, rfl, rfl, rfl⟩

/-- Helper: a malformed frame anywhere in a delivery sequence can be
dropped without changing the final session state. -/
theorem runFrames_malformed_skip (ev : Option String) (s : Session)
    (pre post : List (Option String × DataPayload)) :
    runFrames s (pre ++ (ev, DataPayload.malformed) :: post)
      = runFrames s (pre ++ post) := by
  induction pre generalizing s with
  | nil => rfl
  | cons f fs ih => exact ih (applyFrame f.1 f.2 s)

/-- C9: a `data:` line whose payload fails JSON parsing is skipped without
aborting the session: it changes no session state, and a stream containing
it produces exactly the state produced by the stream without it — every
valid frame before or after keeps its full effect. -/
theorem malformed_data_line_skipped (ev : Option String) (s : Session)
    (pre post : List (Option String × DataPayload)) :
    applyFrame ev DataPayload.malformed s = s ∧
    runFrames s (pre ++ (ev, DataPayload.malformed) :: post)
      = runFrames s (pre ++ post) :=
  ⟨rfl, runFrames_malformed_skip ev s pre post⟩

/-- C10: starting a new stream resets `error` and `progress` to null and
the updates log to empty and raises `isStreaming`, but leaves `insights`
unchanged, so a previously captured final result stays visible; it
disappears only when `clearInsights` clears it (or a new terminal event
overwrites it). -/
theorem start_stream_preserves_insights (h : HookState) :
    (startStreamInit h).session.insights = h.session.insights ∧
    (startStreamInit h).session.error = none ∧
    (startStreamInit h).session.progress = none ∧
    (startStreamInit h).session.updates = [] ∧
    (startStreamInit h).session.isStreaming = true ∧
    (∀ s : Session, (clearInsights s).insights = none) :=
  ⟨rfl, rfl, rfl, rfl, rfl, fun _ => rfl⟩

end PortfolioInsights
